import Mathlib

/-!
Shallow embedding of the test-automation harness's coordination core:
the user-lease pool (`lib/users.py`), the session-start recovery sweep
(`tests/conftest.py pytest_sessionstart`), the credential cache
(`fixtures/auth.py` / `lib/auth.py` `SmartAuth.authenticate`), the seed
healer (`lib/seed.py` / `fixtures/seed.py` `check_and_heal_seed`) and the
test-data builder (`lib/builders/item_builder.py` `ItemBuilder`).

Python dictionaries loaded from JSON are embedded as association lists
with unique keys; Python string primitives are embedded as structural
recursions over `List Char` so that all definitions evaluate.
-/

set_option autoImplicit false

/- ## Python string primitives (ASCII semantics) -/

/-- Python `s.lower()` on a char list. -/
def pyLowerL (l : List Char) : List Char := l.map Char.toLower

/-- Python `s.strip()`: drop whitespace from both ends. -/
def pyStripL (l : List Char) : List Char :=
  ((l.dropWhile Char.isWhitespace).reverse.dropWhile Char.isWhitespace).reverse

/-- Does `p` occur as a prefix of `l`? (helper for literal substring replace). -/
def startsWithL : List Char → List Char → Bool
  | [], _ => true
  | _ :: _, [] => false
  | p :: ps, c :: cs => p == c && startsWithL ps cs

/-- One fuel-indexed pass of Python `str.replace`: replace non-overlapping
occurrences of the literal substring `pat` (assumed nonempty) left to right.
Fuel `l.length` suffices because each step consumes at least one character. -/
def pyReplaceFuel (pat rep : List Char) : Nat → List Char → List Char
  | 0, l => l
  | _ + 1, [] => []
  | fuel + 1, c :: cs =>
      if startsWithL pat (c :: cs) then rep ++ pyReplaceFuel pat rep fuel ((c :: cs).drop pat.length)
      else c :: pyReplaceFuel pat rep fuel cs

/-- Python `s.replace(pat, rep)` for a nonempty literal pattern. -/
def pyReplace (s pat rep : String) : String :=
  if pat.data.isEmpty then s
  else String.mk (pyReplaceFuel pat.data rep.data s.data.length s.data)

/-- Python `str.split()` helper: split on whitespace runs, discarding empties;
`acc` holds the current word reversed. -/
def splitWsAux : List Char → List Char → List (List Char)
  | [], acc => if acc.isEmpty then [] else [acc.reverse]
  | c :: cs, acc =>
      if c.isWhitespace then
        if acc.isEmpty then splitWsAux cs [] else acc.reverse :: splitWsAux cs []
      else splitWsAux cs (c :: acc)

/-- Python `s.split()` (no argument): split on whitespace runs. -/
def pySplitWs (l : List Char) : List (List Char) := splitWsAux l []

/-- Python `str.capitalize()`: first char uppercased, rest lowercased. -/
def pyCapitalizeL : List Char → List Char
  | [] => []
  | c :: cs => c.toUpper :: cs.map Char.toLower

/-- Join char-list words with single spaces (Python `' '.join(...)`). -/
def joinSpace : List (List Char) → List Char
  | [] => []
  | [w] => w
  | w :: ws => w ++ ' ' :: joinSpace ws

/-- Python `user_id[-4:]`: the last four characters (whole string if shorter). -/
def lastFour (s : String) : String :=
  String.mk (s.data.drop (s.data.length - 4))

/-- Decidable equality for `Except`, used to evaluate outcome equalities. -/
instance {ε α : Type} [DecidableEq ε] [DecidableEq α] : DecidableEq (Except ε α) := fun x y =>
  match x, y with
  | .ok a, .ok b => if h : a = b then isTrue (h ▸ rfl) else isFalse (by simp [h])
  | .ok _, .error _ => isFalse (by simp)
  | .error _, .ok _ => isFalse (by simp)
  | .error e, .error f => if h : e = f then isTrue (h ▸ rfl) else isFalse (by simp [h])

/- ## Reservation map (`config/user_state.json`, a JSON object email → worker id) -/

/-- The reservation map: Python dict from identity email to leaseholder
worker id, represented as an association list with unique keys. -/
abbrev StateMap := List (String × String)

/-- Python `state.get(key)` / `key in state` support: first binding of `key`. -/
def lookupKey : StateMap → String → Option String
  | [], _ => none
  | (k, v) :: rest, key => if k == key then some v else lookupKey rest key

/-- Python `state[key] = val`: replace the binding if present, else append. -/
def insertKey : StateMap → String → String → StateMap
  | [], key, val => [(key, val)]
  | (k, v) :: rest, key, val =>
      if k == key then (k, val) :: rest else (k, v) :: insertKey rest key val

/-- Python `del state[key]` guarded by `key in state`: drop the binding. -/
def eraseKey : StateMap → String → StateMap
  | [], _ => []
  | (k, v) :: rest, key => if k == key then rest else (k, v) :: eraseKey rest key

/- ## User pool and lease manager (`lib/users.py`) -/

/-- One identity record of `config/user_pool.json`. `reserved_by` is the
inline reservation field that only the session-start sweep touches;
`UserLease.acquire` and `UserLease.release` never read it. -/
structure PoolUser where
  email : String
  password : String
  reserved_by : Option String := none
deriving DecidableEq

/-- The static pool file `config/user_pool.json`: role name → identity list. -/
abbrev PoolConfig := List (String × List PoolUser)

/-- Python `pool_config.get(role, [])`. -/
def getRole : PoolConfig → String → List PoolUser
  | [], _ => []
  | (r, us) :: rest, role => if r == role then us else getRole rest role

/-- Errors raised by `UserLease.acquire` (both are `RuntimeError`s in the
source; the pool-exhausted one carries the fail-fast message). -/
inductive AcquireError where
  | noUsersConfigured (role : String)
  | poolExhausted (role : String)
deriving DecidableEq

/-- A `UserLease` object: worker id plus the currently held identity. -/
structure UserLease where
  worker_id : String
  user : Option PoolUser := none
  role : Option String := none
deriving DecidableEq

/-- The `for user in candidates: if email not in current_state` search of
`UserLease.acquire`: first candidate with no reservation entry. -/
def findFreeUser (candidates : List PoolUser) (st : StateMap) : Option PoolUser :=
  candidates.find? fun u => (lookupKey st u.email).isNone

/-- `UserLease.acquire(role)` (`lib/users.py` 25-77): load the static config,
fail if the role has no users; under the pool lock find the first free
identity, fail fast with pool-exhausted if none (leaving the map unwritten),
else record the reservation and return the identity. The claim's serialized
critical sections make the locked read-check-write one atomic step here. -/
def UserLease.acquire (lease : UserLease) (cfg : PoolConfig) (role : String)
    (st : StateMap) : Except AcquireError (UserLease × PoolUser × StateMap) :=
  let candidates := getRole cfg role
  if candidates.isEmpty then .error (.noUsersConfigured role)
  else
    match findFreeUser candidates st with
    | none => .error (.poolExhausted role)
    | some u =>
        .ok ({ lease with user := some u, role := some role },
             u, insertKey st u.email lease.worker_id)

/-- `UserLease.release()` (`lib/users.py` 79-110): no-op when no user is held;
otherwise remove this lease's entry (without comparing the stored worker id)
and clear the lease. Total: the source raises nothing on this path. -/
def UserLease.release (lease : UserLease) (st : StateMap) : UserLease × StateMap :=
  match lease.user with
  | none => (lease, st)
  | some u => ({ lease with user := none, role := none }, eraseKey st u.email)

/-- N serialized `acquire` calls, one fresh `UserLease` per worker id, each
critical section running to completion before the next starts. Failed calls
leave the map untouched, exactly as the source raises before writing. -/
def acquireAll (cfg : PoolConfig) (role : String) :
    List String → StateMap → List (Except AcquireError PoolUser) × StateMap
  | [], st => ([], st)
  | w :: ws, st =>
      match UserLease.acquire { worker_id := w } cfg role st with
      | .ok (_, u, st') =>
          let (rs, stf) := acquireAll cfg role ws st'
          (.ok u :: rs, stf)
      | .error e =>
          let (rs, stf) := acquireAll cfg role ws st
          (.error e :: rs, stf)

/-- Candidates of `role` that are free in `st`, in pool-declaration order. -/
def freeList (cfg : PoolConfig) (role : String) (st : StateMap) : List PoolUser :=
  (getRole cfg role).filter fun u => (lookupKey st u.email).isNone

/-- Successful results of a batch of acquire calls. -/
def okUsers (rs : List (Except AcquireError PoolUser)) : List PoolUser :=
  rs.filterMap fun r => r.toOption

/- ## Session-start recovery sweep (`tests/conftest.py pytest_sessionstart`) -/

/-- Python truthiness of `user.get('reserved_by')`. -/
def pyTruthy : Option String → Bool
  | none => false
  | some s => !(s == "")

/-- The per-user reset of the sweep: clear a truthy `reserved_by` flag. -/
def resetUser (u : PoolUser) : PoolUser :=
  if pyTruthy u.reserved_by then { u with reserved_by := none } else u

/-- The `for role in pool: for user in pool[role]` loop of
`pytest_sessionstart`: clear every inline `reserved_by` flag. -/
def morningRollCall (pool : PoolConfig) : PoolConfig :=
  pool.map fun ru => (ru.1, ru.2.map resetUser)

/-- The two JSON files the lease subsystem touches: the static pool file
`config/user_pool.json` and the reservation side-table
`config/user_state.json`. -/
structure FsState where
  pool : PoolConfig
  reservations : StateMap
deriving DecidableEq

/-- `pytest_sessionstart` (`tests/conftest.py` 24-66) as observed on disk:
it opens only `config/user_pool.json` and rewrites the inline `reserved_by`
flags there; `config/user_state.json` is never opened by the hook. -/
def pytest_sessionstart (fs : FsState) : FsState :=
  { fs with pool := morningRollCall fs.pool }

/- ## Credential cache (`fixtures/auth.py` / `lib/auth.py` `SmartAuth`) -/

/-- Contents of the per-identity cache file `state/<email>.json`:
either unreadable/corrupt JSON, or a JSON object whose `token` and `user`
entries may each be absent (`data.get`). -/
inductive CacheFile where
  | malformed
  | stored (token : Option String) (user : Option String)
deriving DecidableEq

/-- The world the authenticate call runs against: the cache file on disk
(absent when `none`), the backend's answer to the whoami validation call
per bearer token, and the backend's answer to a fresh login
(`none` models a non-200 login response). -/
structure AuthWorld where
  cacheFile : Option CacheFile
  tokenValid : String → Bool
  loginResult : Option (Option String × Option String)

/-- A `SmartAuth` instance: the identity's credentials. -/
structure SmartAuth where
  email : String
  password : String
deriving DecidableEq

/-- Observable outcome of one `authenticate()` call: the returned
`(token, user)` pair or the fatal login error, the cache file afterwards,
and how many network login calls were made. -/
structure AuthOutcome where
  result : Except String (Option String × Option String)
  cacheAfter : Option CacheFile
  loginCalls : Nat
deriving DecidableEq

/-- `SmartAuth.authenticate()` (`fixtures/auth.py` 16-50, same control flow
in `lib/auth.py` 20-63): load the cached credential treating a missing or
malformed file as a miss; validate a loaded token against the whoami
endpoint; on miss or invalid perform exactly one fresh login, overwrite the
cache file on success, and raise fatally on login failure (cache untouched,
no further fallback). -/
def SmartAuth.authenticate (a : SmartAuth) (w : AuthWorld) : AuthOutcome :=
  let loaded : Option String × Option String :=
    match w.cacheFile with
    | some (.stored t u) => (t, u)
    | _ => (none, none)
  let is_valid : Bool :=
    match loaded.1 with
    | some t => w.tokenValid t
    | none => false
  if is_valid then
    { result := .ok loaded, cacheAfter := w.cacheFile, loginCalls := 0 }
  else
    match w.loginResult with
    | some tu =>
        { result := .ok tu
          cacheAfter := some (.stored tu.1 tu.2)
          loginCalls := 1 }
    | none =>
        { result := .error (String.append "Login failed for " a.email)
          cacheAfter := w.cacheFile
          loginCalls := 1 }

/- ## Seed healer (`lib/seed.py` / `fixtures/seed.py` `check_and_heal_seed`) -/

/-- A seed template as far as the healing control flow observes it: the
declared name and the `is_active` flag sent in the creation payload
(absent in most templates, i.e. `true`; the remaining declarative fields
ride along in the payload and do not influence the algorithm). -/
structure SeedTemplate where
  name : String
  is_active : Bool := true
deriving DecidableEq

/-- `SEED_ITEMS` of `lib/seed.py`: eleven templates; Zeta and Lambda are
declared inactive. -/
def SEED_ITEMS : List SeedTemplate :=
  [ { name := "Seed Item Alpha" },
    { name := "Seed Item Beta" },
    { name := "Seed Item Gamma" },
    { name := "Seed Item Delta" },
    { name := "Seed Item Epsilon" },
    { name := "Seed Item Zeta", is_active := false },
    { name := "Seed Item Eta" },
    { name := "Seed Item Theta" },
    { name := "Seed Item Iota" },
    { name := "Seed Item Kappa" },
    { name := "Seed Item Lambda", is_active := false } ]

/-- One backend item record as the healer observes it. -/
structure BackendItem where
  id : Nat
  name : String
  owner : String
  is_active : Bool
deriving DecidableEq

/-- The remote API's item store (spec section 6 contract): items with a
global uniqueness constraint on `name`; listings are scoped to the
authenticated owner; `nextId` feeds fresh `_id`s. -/
structure Backend where
  items : List BackendItem
  nextId : Nat
deriving DecidableEq

/-- `GET /items` (active) and `GET /items?status=inactive` for `owner`. -/
def listItems (b : Backend) (owner : String) (active : Bool) : List BackendItem :=
  b.items.filter fun i => i.owner == owner && i.is_active == active

/-- Does any item (any owner) already carry name `n`? `POST /items`
answers 409 exactly in this case, 201 otherwise. -/
def nameExists (b : Backend) (n : String) : Bool :=
  b.items.any fun i => i.name == n

/-- The 201 path of `POST /items`: append a fresh item for `owner`. -/
def createItem (b : Backend) (owner n : String) (active : Bool) : Backend :=
  { items := b.items ++ [{ id := b.nextId, name := n, owner := owner, is_active := active }],
    nextId := b.nextId + 1 }

/-- `PATCH /items/{id}/activate`: flip the item's active flag to true. -/
def activateItem (b : Backend) (iid : Nat) : Backend :=
  { b with items := b.items.map fun i => if i.id == iid then { i with is_active := true } else i }

/-- The deterministic owned name of the healing path:
`f"{seed['name']} - {user_suffix}"` with `user_suffix = user_id[-4:]`. -/
def uniqueName (seedName user_id : String) : String :=
  seedName ++ " - " ++ lastFour user_id

/-- The healer's once-per-run snapshot: names of the owner's items from the
active fetch followed by the inactive fetch. -/
def ownedNames (b : Backend) (owner : String) : List String :=
  (listItems b owner true ++ listItems b owner false).map fun i => i.name

/-- Network requests the healer can issue, recorded for observability. -/
inductive ApiCall where
  | getActive
  | getInactive
  | postCreate (name : String)
  | searchInactive (name : String)
  | activate (id : Nat)
deriving DecidableEq

/-- The per-template body of the healing loop (`lib/seed.py` 159-213,
`fixtures/seed.py` 48-100): skip when the owned name is in the snapshot;
otherwise POST; on 201 done; on 409 search the owner's inactive listing for
the exact name and reactivate the match, or - when nothing matches - log
and continue with the backend untouched. -/
def healStep (user_id : String) (snapshot : List String) (b : Backend)
    (t : SeedTemplate) : Backend × List ApiCall :=
  let n := uniqueName t.name user_id
  if snapshot.contains n then (b, [])
  else if nameExists b n then
    match (listItems b user_id false).find? (fun i => i.name == n) with
    | some target =>
        (activateItem b target.id, [.postCreate n, .searchInactive n, .activate target.id])
    | none => (b, [.postCreate n, .searchInactive n])
  else (createItem b user_id n t.is_active, [.postCreate n])

/-- The `for seed in SEED_ITEMS` loop over a fixed snapshot. -/
def healRun (user_id : String) (snapshot : List String) (b : Backend) :
    List SeedTemplate → Backend × List ApiCall
  | [] => (b, [])
  | t :: ts =>
      let s1 := healStep user_id snapshot b t
      let s2 := healRun user_id snapshot s1.1 ts
      (s2.1, s1.2 ++ s2.2)

/-- `check_and_heal_seed(client, user_id)` with the cleanup toggle off (its
default): fetch active and inactive listings once, then heal each template
in order against that snapshot. -/
def check_and_heal_seed (b : Backend) (user_id : String) : Backend × List ApiCall :=
  let snapshot := ownedNames b user_id
  let r := healRun user_id snapshot b SEED_ITEMS
  (r.1, .getActive :: .getInactive :: r.2)

/-- Names of all items in the backend, in store order. -/
def allNamesL (b : Backend) : List String := b.items.map fun i => i.name

/-- Name-owner pairs of all items (invariant bookkeeping for the healer). -/
def nameOwnerL (b : Backend) : List (String × String) :=
  b.items.map fun i => (i.name, i.owner)

/-- The owner's item count ("count of owned seed items" of the property). -/
def countOwned (b : Backend) (owner : String) : Nat :=
  (b.items.filter fun i => i.owner == owner).length

/-- Names of the owner's active items. -/
def activeOwnedNames (b : Backend) (owner : String) : List String :=
  (listItems b owner true).map fun i => i.name

/- ## Test data builder (`lib/builders/item_builder.py`) -/

/-- `ItemBuilder._title_case`: Python
`' '.join(word.capitalize() for word in text.strip().split())`. -/
def titleCase (text : String) : String :=
  String.mk (joinSpace ((pySplitWs (pyStripL text.data)).map pyCapitalizeL))

/-- `ItemBuilder._adaptive_prefix`: whole name if at most 2 chars, all but
the last char if 3-4 chars, first 5 chars if longer - lowercased. -/
def adaptivePrefix (name : String) : String :=
  let length := name.data.length
  if length ≤ 2 then String.mk (pyLowerL name.data)
  else if length ≤ 4 then String.mk (pyLowerL name.data.dropLast)
  else String.mk (pyLowerL (name.data.take 5))

/-- `ItemBuilder.__init__`'s suffix: `user_id[-4:]`. -/
def builderSuffix (user_id : String) : String := lastFour user_id

/-- The owned name set by `ItemBuilder.with_name`:
`f"{name} - {self.user_id_suffix}"`. -/
def builderFullName (name user_id : String) : String :=
  name ++ " - " ++ builderSuffix user_id

/-- The `normalizedName` computed by `ItemBuilder.with_name`:
`full_name.lower().strip().replace('\s+', ' ')` - note the third step is a
literal `str.replace` of the three-character substring backslash-s-plus. -/
def withNameNormalizedName (name user_id : String) : String :=
  pyReplace (String.mk (pyStripL (pyLowerL (builderFullName name user_id).data))) ("\\s+") (" ")

/-- One built item document, restricted to the derived fields the claims
observe (timestamps as abstract clock readings; the auxiliary Mongoose
bookkeeping fields of `_data` carry constants and are omitted). -/
structure BuiltItem where
  name : String
  normalizedName : String
  normalizedNamePrefix : String
  normalizedCategory : String
  is_active : Bool
  createdAt : Nat
  updatedAt : Nat
deriving DecidableEq

/-- A template as fed to `ItemBuilder.from_template`: name, category and
the optional `is_active` override (defaulting to the builder's `True`). -/
structure BuildTemplate where
  name : String
  category : String
  is_active : Bool := true
deriving DecidableEq

/-- `ItemBuilder(user_id).from_template(t).build()` for one builder whose
single `datetime.now()` reading was `now`: `with_name` and `with_category`
derive the normalized fields, and `createdAt`/`updatedAt` both take the
builder's one timestamp. -/
def buildFromTemplate (now : Nat) (user_id : String) (t : BuildTemplate) : BuiltItem :=
  { name := builderFullName t.name user_id
    normalizedName := withNameNormalizedName t.name user_id
    normalizedNamePrefix := adaptivePrefix (builderFullName t.name user_id)
    normalizedCategory := titleCase t.category
    is_active := t.is_active
    createdAt := now
    updatedAt := now }

/-- `ItemBuilder.build_many(templates, user_id)`: one fresh builder per
template, so the i-th item's timestamp is the clock reading at the i-th
builder construction (`clock i` models the i-th `datetime.now()` call of
the batch). -/
def build_many (clock : Nat → Nat) (templates : List BuildTemplate)
    (user_id : String) : List BuiltItem :=
  templates.enum.map fun it => buildFromTemplate (clock it.1) user_id it.2

/-- All items of a batch carry one shared timestamp (the reading of the
claim; used to state its failure). -/
def allSameTimestamp (items : List BuiltItem) : Prop :=
  ∀ i ∈ items, ∀ j ∈ items, i.createdAt = j.createdAt

/-- The normalization the spec prescribes for `normalizedName`, modelled
from the spec's words: lowercase, then collapse each whitespace run to a
single space (`acc`-free structural scan; `prevWs` remembers whether the
previous character was whitespace). -/
def collapseWsAux : List Char → Bool → List Char
  | [], _ => []
  | c :: cs, prevWs =>
      if c.isWhitespace then
        if prevWs then collapseWsAux cs true else ' ' :: collapseWsAux cs true
      else c :: collapseWsAux cs false

/-- Spec-side `normalizedName`: lowercase with whitespace runs collapsed. -/
def specNormalizedName (ownedName : String) : String :=
  String.mk (collapseWsAux (pyLowerL ownedName.data) false)

/- ## Association-map lemmas -/

/-- Looking up a key that is absent from the key list yields `none`. -/
theorem lookupKey_eq_none_of_not_mem (st : StateMap) (k : String)
    (h : k ∉ st.map Prod.fst) : lookupKey st k = none := by
  induction st with
  | nil => rfl
  | cons p rest ih =>
      simp only [List.map_cons, List.mem_cons, not_or] at h
      have hne : ¬(p.1 == k) = true := by
        simp only [beq_iff_eq]
        exact fun hc => h.1 hc.symm
      obtain ⟨k0, v0⟩ := p
      simp only [lookupKey]
      rw [if_neg hne]
      exact ih h.2

/-- Lookup after insert: the inserted key maps to the new value, every other
key is unaffected. -/
theorem lookupKey_insertKey (st : StateMap) (k v k' : String) :
    lookupKey (insertKey st k v) k' = if k' = k then some v else lookupKey st k' := by
  induction st with
  | nil =>
      by_cases h : k' = k
      · simp [insertKey, lookupKey, h]
      · have h2 : ¬(k = k') := fun hc => h hc.symm
        simp [insertKey, lookupKey, h, h2]
  | cons p rest ih =>
      obtain ⟨k0, v0⟩ := p
      by_cases h0 : k0 = k
      · subst h0
        by_cases h' : k' = k0
        · subst h'
          simp [insertKey, lookupKey]
        · have h2 : ¬(k0 = k') := fun hc => h' hc.symm
          simp [insertKey, lookupKey, h', h2]
      · by_cases h' : k0 = k'
        · subst h'
          simp [insertKey, lookupKey, h0]
        · simp [insertKey, lookupKey, h0, h', ih]

/-- Inserting an absent key appends one entry. -/
theorem length_insertKey_of_lookup_none (st : StateMap) (k v : String)
    (h : lookupKey st k = none) : (insertKey st k v).length = st.length + 1 := by
  induction st with
  | nil => rfl
  | cons p rest ih =>
      obtain ⟨k0, v0⟩ := p
      simp only [lookupKey] at h
      by_cases h0 : k0 = k
      · rw [if_pos (by simpa using h0)] at h; cases h
      · rw [if_neg (by simpa using h0)] at h
        simp only [insertKey]
        rw [if_neg (by simpa using h0)]
        simp [ih h]

/-- Erasing a key removes it when the key list has no duplicates. -/
theorem lookupKey_eraseKey_self (st : StateMap) (k : String)
    (h : (st.map Prod.fst).Nodup) : lookupKey (eraseKey st k) k = none := by
  induction st with
  | nil => rfl
  | cons p rest ih =>
      obtain ⟨k0, v0⟩ := p
      simp only [List.map_cons, List.nodup_cons] at h
      by_cases h0 : k0 = k
      · subst h0
        simp only [eraseKey, beq_self_eq_true, if_true]
        exact lookupKey_eq_none_of_not_mem rest k0 h.1
      · simp only [eraseKey]
        rw [if_neg (by simpa using h0)]
        simp only [lookupKey]
        rw [if_neg (by simpa using h0)]
        exact ih h.2

/- ## Claim theorems: lease release (C9, C10) -/

/-- Claim C9: calling release twice in a row on the same lease, or calling
it on a never-acquired lease, raises no error (both paths are total in the
source) and the second - or only - call leaves the reservation map
unchanged. -/
theorem release_idempotent (lease : UserLease) (st : StateMap) :
    (UserLease.release (UserLease.release lease st).1 (UserLease.release lease st).2
      = ((UserLease.release lease st).1, (UserLease.release lease st).2))
    ∧ ∀ w, UserLease.release { worker_id := w } st = ({ worker_id := w }, st) := by
  constructor
  · cases h : lease.user <;> simp [UserLease.release, h]
  · intro w; rfl

/-- Claim C10: release saves the map with the entry for the lease's identity
email removed and raises no error even when the map records a different
worker id as leaseholder; the stored leaseholder id is never compared to the
lease's own worker id. -/
theorem release_ignores_stored_worker (w e pw ww : String) (rb : Option String)
    (ro : Option String) (st : StateMap)
    (hkeys : (st.map Prod.fst).Nodup)
    (hheld : lookupKey st e = some ww) (hne : ww ≠ w) :
    (UserLease.release ⟨w, some ⟨e, pw, rb⟩, ro⟩ st).2 = eraseKey st e
    ∧ lookupKey (UserLease.release ⟨w, some ⟨e, pw, rb⟩, ro⟩ st).2 e = none := by
  refine ⟨rfl, ?_⟩
  show lookupKey (eraseKey st e) e = none
  exact lookupKey_eraseKey_self st e hkeys

/-- Witness for C10 at a concrete map holding the entry under worker gw1
while the releasing lease belongs to worker gw5. -/
theorem release_ignores_stored_worker_witness :
    (UserLease.release ⟨"gw5", some ⟨"admin1@test.com", "pw", none⟩, some "ADMIN"⟩
        [("admin1@test.com", "gw1")]).2
      = eraseKey [("admin1@test.com", "gw1")] "admin1@test.com"
    ∧ lookupKey (UserLease.release ⟨"gw5", some ⟨"admin1@test.com", "pw", none⟩, some "ADMIN"⟩
        [("admin1@test.com", "gw1")]).2 "admin1@test.com" = none :=
  release_ignores_stored_worker "gw5" "admin1@test.com" "pw" "gw1" none (some "ADMIN")
    [("admin1@test.com", "gw1")] (by decide) (by decide) (by decide)

/- ## Claim theorem: recovery sweep (C2, code bug) -/

/-- Claim C2 (code bug, failing input): starting from a stale entry in the
reservation side-table user_state.json - the very state the repository's
own verify_morning_roll_call.py sets up and then expects to be emptied -
one session-start sweep rewrites only user_pool.json's inline reserved_by
flags and leaves the reservation map that acquire consults unchanged, so a
subsequent acquire for the stale-reserved identity's role still fails with
pool-exhausted instead of succeeding. -/
theorem morning_roll_call_misses_state_file :
    (pytest_sessionstart
        ⟨[("ADMIN", [⟨"test@email.com", "pw", some "w9"⟩])],
         [("test@email.com", "stuck_worker")]⟩).reservations
      = [("test@email.com", "stuck_worker")]
    ∧ (pytest_sessionstart
        ⟨[("ADMIN", [⟨"test@email.com", "pw", some "w9"⟩])],
         [("test@email.com", "stuck_worker")]⟩).pool
      = [("ADMIN", [⟨"test@email.com", "pw", none⟩])]
    ∧ UserLease.acquire ⟨"gw0", none, none⟩
        [("ADMIN", [⟨"test@email.com", "pw", none⟩])]
        "ADMIN" [("test@email.com", "stuck_worker")]
      = .error (.poolExhausted "ADMIN") := by
  decide

/- ## Claim theorem: naming refinement (C6) -/

/-- Claim C6: the owned-name transforms of the API healing path and of the
builder path are the same function of template name and owner id; for any
owner id whose last four characters are 8baa, template name Seed Item Alpha
yields exactly "Seed Item Alpha - 8baa" on both paths. -/
theorem heal_and_builder_names_agree (uid : String) (hsuf : lastFour uid = "8baa") :
    (∀ nm uid2, builderFullName nm uid2 = uniqueName nm uid2)
    ∧ builderFullName "Seed Item Alpha" uid = "Seed Item Alpha - 8baa"
    ∧ uniqueName "Seed Item Alpha" uid = "Seed Item Alpha - 8baa" := by
  refine ⟨fun nm uid2 => rfl, ?_, ?_⟩ <;>
    · show _ ++ " - " ++ lastFour uid = _
      rw [hsuf]
      decide

/-- Witness for C6 at the repository's canonical test owner id, whose last
four characters are 8baa. -/
theorem heal_and_builder_names_agree_witness :
    (∀ nm uid2, builderFullName nm uid2 = uniqueName nm uid2)
    ∧ builderFullName "Seed Item Alpha" "695b747b17d17d21e8ae8baa" = "Seed Item Alpha - 8baa"
    ∧ uniqueName "Seed Item Alpha" "695b747b17d17d21e8ae8baa" = "Seed Item Alpha - 8baa" :=
  heal_and_builder_names_agree "695b747b17d17d21e8ae8baa" (by decide)

/- ## Claim theorem: builder normalization (C7, code bug) -/

/-- Claim C7 (code bug, failing input): for the name "Seed  Item" (doubled
inner space) the normalizedName computed by with_name keeps the doubled
space, because `.replace('\s+', ' ')` replaces the literal three-character
substring backslash-s-plus and never fires; the spec's lowercase plus
whitespace-collapse transform yields the single-spaced form, and the two
disagree. -/
theorem with_name_normalizedName_keeps_whitespace :
    withNameNormalizedName "Seed  Item" "695b747b17d17d21e8ae8baa" = "seed  item - 8baa"
    ∧ specNormalizedName (builderFullName "Seed  Item" "695b747b17d17d21e8ae8baa")
        = "seed item - 8baa"
    ∧ withNameNormalizedName "Seed  Item" "695b747b17d17d21e8ae8baa"
        ≠ specNormalizedName (builderFullName "Seed  Item" "695b747b17d17d21e8ae8baa") := by
  decide

/- ## Claim theorems: batch timestamps (C8, corrected) -/

/-- Claim C8 (counterexample): under a clock that advances by one between
the two datetime.now() readings, a two-template batch built by build_many
carries createdAt 0 on its first item and 1 on its second, so the items of
one batch do not all share one timestamp. -/
theorem build_many_not_one_timestamp_per_batch :
    ¬ allSameTimestamp (build_many (fun i => i)
        [{ name := "Seed Item Alpha", category := "Electronics" },
         { name := "Seed Item Beta", category := "Software" }] "695b747b17d17d21e8ae8baa") := by
  unfold allSameTimestamp
  decide

/-- Claim C8 (amended): build_many takes one timestamp per item, not per
batch - the i-th built item's createdAt and updatedAt both equal the clock
reading at the i-th builder construction, so createdAt and updatedAt agree
within each item while items of one batch may differ. -/
theorem build_many_timestamp_per_item (clock : Nat → Nat)
    (templates : List BuildTemplate) (uid : String) (i : Nat)
    (h : i < (build_many clock templates uid).length) :
    (build_many clock templates uid)[i].createdAt = clock i
    ∧ (build_many clock templates uid)[i].updatedAt = clock i := by
  constructor <;> simp [build_many, List.getElem_map, List.getElem_enum, buildFromTemplate]

/-- Witness for the amended C8 at a one-template batch under a clock whose
first reading is 100. -/
theorem build_many_timestamp_per_item_witness :
    (build_many (fun i => 100 + i) [{ name := "Seed Item Alpha", category := "Electronics" }]
        "695b747b17d17d21e8ae8baa")[0].createdAt = 100
    ∧ (build_many (fun i => 100 + i) [{ name := "Seed Item Alpha", category := "Electronics" }]
        "695b747b17d17d21e8ae8baa")[0].updatedAt = 100 :=
  build_many_timestamp_per_item (fun i => 100 + i)
    [{ name := "Seed Item Alpha", category := "Electronics" }]
    "695b747b17d17d21e8ae8baa" 0 (by decide)

/- ## Claim theorem: credential cache (C4) -/

/-- Claim C4: when a cached token exists and the whoami validation reports it
valid, authenticate makes zero login calls and returns the cached token and
user profile with the cache file untouched; when the cache file is missing,
malformed, token-less, or its token is reported invalid, exactly one fresh
login call is made, the cache file is overwritten with the new credential,
and the new credential is returned; a failed fresh login raises the fatal
error after that single call, with the cache untouched and no fallback. -/
theorem smart_gate (a : SmartAuth) (w : AuthWorld) :
    (∀ t u, w.cacheFile = some (.stored (some t) u) → w.tokenValid t = true →
        a.authenticate w = ⟨.ok (some t, u), w.cacheFile, 0⟩)
    ∧ (∀ tu, (w.cacheFile = none ∨ w.cacheFile = some .malformed
          ∨ (∃ u, w.cacheFile = some (.stored none u))
          ∨ (∃ t u, w.cacheFile = some (.stored (some t) u) ∧ w.tokenValid t = false)) →
        w.loginResult = some tu →
        a.authenticate w = ⟨.ok tu, some (.stored tu.1 tu.2), 1⟩)
    ∧ ((w.cacheFile = none ∨ w.cacheFile = some .malformed
          ∨ (∃ u, w.cacheFile = some (.stored none u))
          ∨ (∃ t u, w.cacheFile = some (.stored (some t) u) ∧ w.tokenValid t = false)) →
        w.loginResult = none →
        a.authenticate w
          = ⟨.error (String.append "Login failed for " a.email), w.cacheFile, 1⟩) := by
  refine ⟨?_, ?_, ?_⟩
  · intro t u hc hv
    simp [SmartAuth.authenticate, hc, hv]
  · intro tu hmiss hl
    rcases hmiss with hc | hc | ⟨u, hc⟩ | ⟨t, u, hc, hv⟩ <;>
      simp [SmartAuth.authenticate, hc, hl] <;>
      simp [hv]
  · intro hmiss hl
    rcases hmiss with hc | hc | ⟨u, hc⟩ | ⟨t, u, hc, hv⟩ <;>
      simp [SmartAuth.authenticate, hc, hl] <;>
      simp [hv]

/-- Witness for C4 on the cache-hit-and-valid branch: a stored token the
backend validates is returned with zero login calls. -/
theorem smart_gate_witness :
    SmartAuth.authenticate ⟨"admin1@test.com", "pw"⟩
      ⟨some (.stored (some "tokA") (some "alice")), fun t => t == "tokA", none⟩
      = ⟨.ok (some "tokA", some "alice"), some (.stored (some "tokA") (some "alice")), 0⟩ :=
  (smart_gate ⟨"admin1@test.com", "pw"⟩
      ⟨some (.stored (some "tokA") (some "alice")), fun t => t == "tokA", none⟩).1
    "tokA" (some "alice") rfl (by decide)

/- ## Claim theorem: healer conflict path (C5) -/

/-- Claim C5: for a template whose owned name misses the snapshot while some
item already carries that name (the 409 case), the healer issues the
inactive-listing search for the exact owned name; if the search finds an
owned inactive record it calls the dedicated activate endpoint on that
record's id; if it finds none, the backend is left untouched, nothing is
raised, and the run continues with the remaining templates. -/
theorem heal_conflict_path (b : Backend) (uid : String) (snapshot : List String)
    (t : SeedTemplate)
    (hmiss : snapshot.contains (uniqueName t.name uid) = false)
    (hconf : nameExists b (uniqueName t.name uid) = true) :
    (ApiCall.searchInactive (uniqueName t.name uid)) ∈ (healStep uid snapshot b t).2
    ∧ (∀ target,
        (listItems b uid false).find? (fun i => i.name == uniqueName t.name uid) = some target →
        (healStep uid snapshot b t).1 = activateItem b target.id
        ∧ (ApiCall.activate target.id) ∈ (healStep uid snapshot b t).2)
    ∧ ((listItems b uid false).find? (fun i => i.name == uniqueName t.name uid) = none →
        (healStep uid snapshot b t).1 = b
        ∧ (healStep uid snapshot b t).2
            = [.postCreate (uniqueName t.name uid), .searchInactive (uniqueName t.name uid)]
        ∧ ∀ ts, (healRun uid snapshot b (t :: ts)).1 = (healRun uid snapshot b ts).1) := by
  have hm : uniqueName t.name uid ∉ snapshot := by simpa using hmiss
  refine ⟨?_, ?_, ?_⟩
  · cases hf : (listItems b uid false).find? (fun i => i.name == uniqueName t.name uid) <;>
      simp [healStep, hm, hconf, hf]
  · intro target hf
    constructor <;> simp [healStep, hm, hconf, hf]
  · intro hf
    refine ⟨?_, ?_, ?_⟩
    · simp [healStep, hm, hconf, hf]
    · simp [healStep, hm, hconf, hf]
    · intro ts
      simp [healRun, healStep, hm, hconf, hf]

/-- Witness for C5: a foreign owner's active item already carries the owned
name, the searching owner has no inactive match, so the healer leaves the
backend unchanged and continues. -/
theorem heal_conflict_path_witness :
    (ApiCall.searchInactive (uniqueName "Seed Item Alpha" "695b747b17d17d21e8ae8baa"))
      ∈ (healStep "695b747b17d17d21e8ae8baa" []
          ⟨[⟨0, "Seed Item Alpha - 8baa", "otherOwner", true⟩], 1⟩
          ⟨"Seed Item Alpha", true⟩).2
    ∧ (healStep "695b747b17d17d21e8ae8baa" []
          ⟨[⟨0, "Seed Item Alpha - 8baa", "otherOwner", true⟩], 1⟩
          ⟨"Seed Item Alpha", true⟩).1
        = ⟨[⟨0, "Seed Item Alpha - 8baa", "otherOwner", true⟩], 1⟩ :=
  ⟨(heal_conflict_path ⟨[⟨0, "Seed Item Alpha - 8baa", "otherOwner", true⟩], 1⟩
      "695b747b17d17d21e8ae8baa" [] ⟨"Seed Item Alpha", true⟩ (by decide) (by decide)).1,
   ((heal_conflict_path ⟨[⟨0, "Seed Item Alpha - 8baa", "otherOwner", true⟩], 1⟩
      "695b747b17d17d21e8ae8baa" [] ⟨"Seed Item Alpha", true⟩ (by decide) (by decide)).2.2
      (by decide)).1⟩

/- ## Lease-pool lemmas (C1) -/

/-- The first element satisfying `p` heads the filtered list. -/
theorem find?_eq_head?_filter {α : Type} (p : α → Bool) (l : List α) :
    l.find? p = (l.filter p).head? := by
  induction l with
  | nil => rfl
  | cons a l ih =>
      cases h : p a with
      | true => rw [List.find?_cons, List.filter_cons]; simp only [h]; rfl
      | false => rw [List.find?_cons, List.filter_cons]; simp only [h]; exact ih

/-- The free-user search returns the head of the free list. -/
theorem findFreeUser_eq_head? (cfg : PoolConfig) (role : String) (st : StateMap) :
    findFreeUser (getRole cfg role) st = (freeList cfg role st).head? :=
  find?_eq_head?_filter _ _

/-- Emails of the free candidates inherit the pool's distinctness. -/
theorem freeList_email_nodup (cfg : PoolConfig) (role : String) (st : StateMap)
    (hnd : ((getRole cfg role).map PoolUser.email).Nodup) :
    ((freeList cfg role st).map PoolUser.email).Nodup :=
  List.Nodup.sublist (List.Sublist.map PoolUser.email (List.filter_sublist _)) hnd

/-- Members of the free list carry no reservation entry. -/
theorem lookup_none_of_mem_freeList (cfg : PoolConfig) (role : String) (st : StateMap)
    (u : PoolUser) (h : u ∈ freeList cfg role st) :
    lookupKey st u.email = none := by
  have h2 := (List.mem_filter.mp h).2
  simpa using h2

/-- Reserving the head of the free list removes exactly it from the free
list: all later candidates stay free. -/
theorem freeList_insertKey (cfg : PoolConfig) (role : String) (st : StateMap)
    (u : PoolUser) (F' : List PoolUser) (w : String)
    (hnd : ((getRole cfg role).map PoolUser.email).Nodup)
    (hF : freeList cfg role st = u :: F') :
    freeList cfg role (insertKey st u.email w) = F' := by
  have h1 : freeList cfg role (insertKey st u.email w)
      = (freeList cfg role st).filter (fun v => !(v.email == u.email)) := by
    rw [freeList, freeList, List.filter_filter]
    apply List.filter_congr
    intro v hv
    rw [lookupKey_insertKey]
    by_cases he : v.email = u.email
    · simp [he]
    · simp [he]
  rw [h1, hF, List.filter_cons]
  rw [if_neg (by simp)]
  apply List.filter_eq_self.mpr
  intro v hv
  have hnodup2 : ((freeList cfg role st).map PoolUser.email).Nodup :=
    freeList_email_nodup cfg role st hnd
  rw [hF] at hnodup2
  simp only [List.map_cons, List.nodup_cons] at hnodup2
  have hne : v.email ≠ u.email := by
    intro he
    exact hnodup2.1 (by rw [← he]; exact List.mem_map_of_mem PoolUser.email hv)
  simp [hne]

/-- The shape of N serialized acquire calls: the first min(N,K) calls take
the free list in order as successes, the remaining N - K calls all fail
with pool-exhausted, and the reservation map grows by exactly min(N,K)
entries. -/
theorem acquireAll_spec (cfg : PoolConfig) (role : String)
    (hc : getRole cfg role ≠ [])
    (hnd : ((getRole cfg role).map PoolUser.email).Nodup) :
    ∀ (workers : List String) (st : StateMap),
      (acquireAll cfg role workers st).1
        = ((freeList cfg role st).take workers.length).map Except.ok
          ++ List.replicate (workers.length - (freeList cfg role st).length)
              (Except.error (AcquireError.poolExhausted role))
      ∧ (acquireAll cfg role workers st).2.length
          = st.length + min workers.length (freeList cfg role st).length := by
  intro workers
  induction workers with
  | nil => intro st; constructor <;> simp [acquireAll]
  | cons w ws ih =>
      intro st
      have hc' : ((getRole cfg role).isEmpty) = false := by
        cases hgr : getRole cfg role with
        | nil => exact absurd hgr hc
        | cons a l => rfl
      cases hF : freeList cfg role st with
      | nil =>
          have hfind : findFreeUser (getRole cfg role) st = none := by
            rw [findFreeUser_eq_head?, hF]; rfl
          have hacq : UserLease.acquire ⟨w, none, none⟩ cfg role st
              = .error (.poolExhausted role) := by
            simp [UserLease.acquire, hc', hfind]
          rcases ih st with ⟨ih1, ih2⟩
          rw [hF] at ih1 ih2
          constructor
          · simp [acquireAll, hacq, ih1, hF, List.replicate_succ]
          · simp [acquireAll, hacq, ih2, hF]
      | cons u F' =>
          have hfind : findFreeUser (getRole cfg role) st = some u := by
            rw [findFreeUser_eq_head?, hF]; rfl
          have hacq : UserLease.acquire ⟨w, none, none⟩ cfg role st
              = .ok (⟨w, some u, some role⟩, u, insertKey st u.email w) := by
            simp [UserLease.acquire, hc', hfind]
          have humem : u ∈ freeList cfg role st := by
            rw [hF]; exact List.mem_cons_self _ _
          have hulk : lookupKey st u.email = none :=
            lookup_none_of_mem_freeList cfg role st u humem
          have hF' : freeList cfg role (insertKey st u.email w) = F' :=
            freeList_insertKey cfg role st u F' w hnd hF
          rcases ih (insertKey st u.email w) with ⟨ih1, ih2⟩
          rw [hF'] at ih1 ih2
          have hstlen : (insertKey st u.email w).length = st.length + 1 :=
            length_insertKey_of_lookup_none st u.email w hulk
          constructor
          · simp [acquireAll, hacq, ih1, hF, List.take_succ_cons, Nat.succ_sub_succ]
          · simp only [acquireAll, hacq, ih2, hF, hstlen, List.length_cons]
            rw [Nat.succ_min_succ]
            omega

/-- Successes of a batch are exactly the mapped-ok part. -/
theorem okUsers_shape (l : List PoolUser) (n : Nat) (e : AcquireError) :
    okUsers (l.map Except.ok ++ List.replicate n (Except.error e)) = l := by
  have h1 : okUsers (l.map Except.ok) = l := by
    rw [okUsers, List.filterMap_map]
    exact List.filterMap_some l
  have h2 : okUsers (List.replicate n (Except.error e)) = [] := by
    induction n with
    | zero => rfl
    | succ m ih =>
        rw [List.replicate_succ, okUsers, List.filterMap_cons]
        simp only [Except.toOption]
        exact ih
  rw [okUsers, List.filterMap_append]
  show okUsers _ ++ okUsers _ = l
  rw [h1, h2, List.append_nil]

/- ## Claim theorem: pool mutual exclusion (C1) -/

/-- Claim C1: for a configured role (a nonempty candidate list with distinct
emails) holding exactly K free identities, N ≥ 2 serialized acquire calls
from distinct workers produce exactly min(N,K) successes returning pairwise
distinct identities; every other call fails with the pool-exhausted error
(never queued or retried - each worker gets exactly one result), and the
reservation map gains exactly one entry per success and none per failure. -/
theorem pool_mutual_exclusion (cfg : PoolConfig) (role : String)
    (workers : List String) (st : StateMap)
    (hN : 2 ≤ workers.length) (hw : workers.Nodup)
    (hc : getRole cfg role ≠ [])
    (hnd : ((getRole cfg role).map PoolUser.email).Nodup) :
    (okUsers (acquireAll cfg role workers st).1).length
      = min workers.length (freeList cfg role st).length
    ∧ ((okUsers (acquireAll cfg role workers st).1).map PoolUser.email).Nodup
    ∧ (∀ r ∈ (acquireAll cfg role workers st).1,
        (∃ u, r = .ok u) ∨ r = .error (.poolExhausted role))
    ∧ (acquireAll cfg role workers st).1.length = workers.length
    ∧ (acquireAll cfg role workers st).2.length
        = st.length + min workers.length (freeList cfg role st).length := by
  rcases acquireAll_spec cfg role hc hnd workers st with ⟨h1, h2⟩
  have hok : okUsers (acquireAll cfg role workers st).1
      = (freeList cfg role st).take workers.length := by
    rw [h1]; exact okUsers_shape _ _ _
  refine ⟨?_, ?_, ?_, ?_, h2⟩
  · rw [hok, List.length_take]
  · rw [hok, List.map_take]
    exact List.Nodup.sublist (List.take_sublist _ _) (freeList_email_nodup cfg role st hnd)
  · intro r hr
    rw [h1] at hr
    rcases List.mem_append.mp hr with hr | hr
    · rcases List.mem_map.mp hr with ⟨u, _, hu⟩
      exact Or.inl ⟨u, hu.symm⟩
    · exact Or.inr (List.mem_replicate.mp hr).2
  · rw [h1]
    simp [List.length_take]
    omega

/-- Witness for C1: a two-identity ADMIN pool, an empty reservation map and
three workers - exactly two acquires succeed on distinct identities, one
fails pool-exhausted, and the map gains two entries. -/
theorem pool_mutual_exclusion_witness :
    (okUsers (acquireAll
        [("ADMIN", [⟨"admin1@test.com", "pw1", none⟩, ⟨"admin2@test.com", "pw2", none⟩])]
        "ADMIN" ["gw0", "gw1", "gw2"] []).1).length
      = min (["gw0", "gw1", "gw2"] : List String).length
          (freeList
            [("ADMIN", [⟨"admin1@test.com", "pw1", none⟩, ⟨"admin2@test.com", "pw2", none⟩])]
            "ADMIN" []).length
    ∧ ((okUsers (acquireAll
        [("ADMIN", [⟨"admin1@test.com", "pw1", none⟩, ⟨"admin2@test.com", "pw2", none⟩])]
        "ADMIN" ["gw0", "gw1", "gw2"] []).1).map PoolUser.email).Nodup
    ∧ (∀ r ∈ (acquireAll
        [("ADMIN", [⟨"admin1@test.com", "pw1", none⟩, ⟨"admin2@test.com", "pw2", none⟩])]
        "ADMIN" ["gw0", "gw1", "gw2"] []).1,
        (∃ u, r = .ok u) ∨ r = .error (.poolExhausted "ADMIN"))
    ∧ (acquireAll
        [("ADMIN", [⟨"admin1@test.com", "pw1", none⟩, ⟨"admin2@test.com", "pw2", none⟩])]
        "ADMIN" ["gw0", "gw1", "gw2"] []).1.length = (["gw0", "gw1", "gw2"] : List String).length
    ∧ (acquireAll
        [("ADMIN", [⟨"admin1@test.com", "pw1", none⟩, ⟨"admin2@test.com", "pw2", none⟩])]
        "ADMIN" ["gw0", "gw1", "gw2"] []).2.length
        = ([] : StateMap).length
          + min (["gw0", "gw1", "gw2"] : List String).length
              (freeList
                [("ADMIN", [⟨"admin1@test.com", "pw1", none⟩, ⟨"admin2@test.com", "pw2", none⟩])]
                "ADMIN" []).length :=
  pool_mutual_exclusion
    [("ADMIN", [⟨"admin1@test.com", "pw1", none⟩, ⟨"admin2@test.com", "pw2", none⟩])]
    "ADMIN" ["gw0", "gw1", "gw2"] [] (by decide) (by decide) (by decide) (by decide)

/- ## Seed-healer lemmas (C3) -/

/-- Reactivation changes no name-owner pair. -/
theorem nameOwnerL_activateItem (b : Backend) (iid : Nat) :
    nameOwnerL (activateItem b iid) = nameOwnerL b := by
  rw [nameOwnerL, nameOwnerL, activateItem, List.map_map]
  apply List.map_congr_left
  intro i _
  by_cases h : i.id = iid <;> simp [h]

/-- Creation appends exactly one name-owner pair. -/
theorem nameOwnerL_createItem (b : Backend) (o n : String) (a : Bool) :
    nameOwnerL (createItem b o n a) = nameOwnerL b ++ [(n, o)] := by
  simp [nameOwnerL, createItem]

/-- The global name list is the first projection of the pair list. -/
theorem allNamesL_eq (b : Backend) : allNamesL b = (nameOwnerL b).map Prod.fst := by
  rw [allNamesL, nameOwnerL, List.map_map]
  rfl

/-- Reactivation changes no name. -/
theorem allNamesL_activateItem (b : Backend) (iid : Nat) :
    allNamesL (activateItem b iid) = allNamesL b := by
  rw [allNamesL_eq, allNamesL_eq, nameOwnerL_activateItem]

/-- One healing step either keeps the pair list or appends the owned pair
for its template. -/
theorem healStep_nameOwner (uid : String) (snap : List String) (b : Backend)
    (t : SeedTemplate) :
    nameOwnerL (healStep uid snap b t).1 = nameOwnerL b
    ∨ nameOwnerL (healStep uid snap b t).1
        = nameOwnerL b ++ [(uniqueName t.name uid, uid)] := by
  by_cases h1 : uniqueName t.name uid ∈ snap
  · left; simp [healStep, h1]
  · cases h2 : nameExists b (uniqueName t.name uid) with
    | true =>
        cases hf : (listItems b uid false).find? (fun i => i.name == uniqueName t.name uid) with
        | none => left; simp [healStep, h1, h2, hf]
        | some target => left; simp [healStep, h1, h2, hf, nameOwnerL_activateItem]
    | false => right; simp [healStep, h1, h2, nameOwnerL_createItem]

/-- A 409-free 201 creation makes the owned name globally present. -/
theorem healStep_creates (uid : String) (snap : List String) (b : Backend)
    (t : SeedTemplate)
    (h1 : uniqueName t.name uid ∉ snap)
    (h2 : nameExists b (uniqueName t.name uid) = false) :
    uniqueName t.name uid ∈ allNamesL (healStep uid snap b t).1 := by
  simp [healStep, h1, h2, allNamesL, createItem]

/-- Names present before a healing step remain present after it. -/
theorem healStep_allNames_mono (uid : String) (snap : List String) (b : Backend)
    (t : SeedTemplate) (x : String) (hx : x ∈ allNamesL b) :
    x ∈ allNamesL (healStep uid snap b t).1 := by
  rw [allNamesL_eq] at hx ⊢
  rcases healStep_nameOwner uid snap b t with h | h <;> rw [h]
  · exact hx
  · rw [List.map_append]; exact List.mem_append.mpr (Or.inl hx)

/-- Name-owner pairs survive a whole healing run. -/
theorem healRun_nameOwner_mono (uid : String) (snap : List String)
    (ts : List SeedTemplate) : ∀ (b : Backend) (x : String × String),
    x ∈ nameOwnerL b → x ∈ nameOwnerL (healRun uid snap b ts).1 := by
  induction ts with
  | nil => intro b x hx; exact hx
  | cons t ts ih =>
      intro b x hx
      refine ih (healStep uid snap b t).1 x ?_
      rcases healStep_nameOwner uid snap b t with h | h <;> rw [h]
      · exact hx
      · exact List.mem_append.mpr (Or.inl hx)

/-- Names survive a whole healing run. -/
theorem healRun_allNames_mono (uid : String) (snap : List String)
    (ts : List SeedTemplate) : ∀ (b : Backend) (x : String),
    x ∈ allNamesL b → x ∈ allNamesL (healRun uid snap b ts).1 := by
  induction ts with
  | nil => intro b x hx; exact hx
  | cons t ts ih =>
      intro b x hx
      exact ih (healStep uid snap b t).1 x (healStep_allNames_mono uid snap b t x hx)

/-- Membership in the owner's combined listings is membership of the
name-owner pair in the store. -/
theorem mem_ownedNames_iff (b : Backend) (o : String) (x : String) :
    x ∈ ownedNames b o ↔ (x, o) ∈ nameOwnerL b := by
  rw [ownedNames, nameOwnerL]
  constructor
  · intro hx
    rcases List.mem_map.mp hx with ⟨i, hi, rfl⟩
    rcases List.mem_append.mp hi with hi2 | hi2 <;>
    · have h2 := List.mem_filter.mp hi2
      have ho : i.owner = o := by
        have h3 := h2.2
        simp only [Bool.and_eq_true, beq_iff_eq] at h3
        exact h3.1
      exact List.mem_map.mpr ⟨i, h2.1, by rw [ho]⟩
  · intro hx
    rcases List.mem_map.mp hx with ⟨i, hi, hpair⟩
    have hxn : i.name = x := congrArg Prod.fst hpair
    have ho : i.owner = o := congrArg Prod.snd hpair
    refine List.mem_map.mpr ⟨i, ?_, hxn⟩
    cases ha : i.is_active
    · exact List.mem_append.mpr (Or.inr (List.mem_filter.mpr ⟨hi, by simp [ho, ha]⟩))
    · exact List.mem_append.mpr (Or.inl (List.mem_filter.mpr ⟨hi, by simp [ho, ha]⟩))

/-- The owner's listed names survive a whole healing run. -/
theorem healRun_ownedNames_mono (uid : String) (snap : List String)
    (ts : List SeedTemplate) (b : Backend) (o : String) (x : String)
    (hx : x ∈ ownedNames b o) : x ∈ ownedNames (healRun uid snap b ts).1 o := by
  rw [mem_ownedNames_iff] at hx ⊢
  exact healRun_nameOwner_mono uid snap ts b (x, o) hx

/-- The POST guard answers 409 exactly when the name is taken. -/
theorem nameExists_iff (b : Backend) (n : String) :
    nameExists b n = true ↔ n ∈ allNamesL b := by
  rw [nameExists, allNamesL, List.any_eq_true]
  constructor
  · rintro ⟨i, hi, hp⟩
    exact List.mem_map.mpr ⟨i, hi, by simpa using hp⟩
  · intro h
    rcases List.mem_map.mp h with ⟨i, hi, hx⟩
    exact ⟨i, hi, by simp [hx]⟩

/-- After one full run, every template's owned name is either listed for the
owner or globally taken. -/
theorem healRun_covers (uid : String) (snap : List String) :
    ∀ (ts : List SeedTemplate) (b : Backend), ∀ t ∈ ts,
      uniqueName t.name uid ∈ snap
      ∨ uniqueName t.name uid ∈ allNamesL (healRun uid snap b ts).1 := by
  intro ts
  induction ts with
  | nil => intro b t ht; cases ht
  | cons t0 ts ih =>
      intro b t ht
      rcases List.mem_cons.mp ht with rfl | ht2
      · by_cases h1 : uniqueName t.name uid ∈ snap
        · exact Or.inl h1
        · right
          have hstep : uniqueName t.name uid ∈ allNamesL (healStep uid snap b t).1 := by
            cases h2 : nameExists b (uniqueName t.name uid) with
            | true => exact healStep_allNames_mono uid snap b t _ ((nameExists_iff b _).mp h2)
            | false => exact healStep_creates uid snap b t h1 h2
          exact healRun_allNames_mono uid snap ts (healStep uid snap b t).1 _ hstep
      · exact ih (healStep uid snap b t0).1 t ht2

/-- A healing step over the owner's own snapshot is a no-op once the owned
name is listed for the owner or globally taken. -/
theorem healStep_id_of_covered (uid : String) (b1 : Backend) (t : SeedTemplate)
    (hcov : uniqueName t.name uid ∈ ownedNames b1 uid
      ∨ uniqueName t.name uid ∈ allNamesL b1) :
    (healStep uid (ownedNames b1 uid) b1 t).1 = b1 := by
  by_cases hsn : uniqueName t.name uid ∈ ownedNames b1 uid
  · simp [healStep, hsn]
  · have hex : uniqueName t.name uid ∈ allNamesL b1 := hcov.resolve_left hsn
    have h2 : nameExists b1 (uniqueName t.name uid) = true := (nameExists_iff _ _).mpr hex
    have hf : (listItems b1 uid false).find?
        (fun i => i.name == uniqueName t.name uid) = none := by
      rw [List.find?_eq_none]
      intro i hi hpn
      apply hsn
      rw [mem_ownedNames_iff]
      have h3 := List.mem_filter.mp hi
      have ho : i.owner = uid := by
        have h4 := h3.2
        simp only [Bool.and_eq_true, beq_iff_eq] at h4
        exact h4.1
      have hn : i.name = uniqueName t.name uid := by simpa using hpn
      exact List.mem_map.mpr ⟨i, h3.1, by rw [hn, ho]⟩
    simp [healStep, hsn, h2, hf]

/-- A full run over the owner's own snapshot is a no-op once every template
is covered. -/
theorem healRun_id_of_covered (uid : String) (b1 : Backend) :
    ∀ (ts : List SeedTemplate),
    (∀ t ∈ ts, uniqueName t.name uid ∈ ownedNames b1 uid
      ∨ uniqueName t.name uid ∈ allNamesL b1) →
    (healRun uid (ownedNames b1 uid) b1 ts).1 = b1 := by
  intro ts
  induction ts with
  | nil => intro _; rfl
  | cons t ts ih =>
      intro hcov
      have hstep : (healStep uid (ownedNames b1 uid) b1 t).1 = b1 :=
        healStep_id_of_covered uid b1 t (hcov t (List.mem_cons_self _ _))
      show (healRun uid (ownedNames b1 uid)
          (healStep uid (ownedNames b1 uid) b1 t).1 ts).1 = b1
      rw [hstep]
      exact ih (fun t2 ht2 => hcov t2 (List.mem_cons_of_mem _ ht2))

/-- After one check_and_heal_seed, every seed template is covered. -/
theorem heal_establishes_cover (uid : String) (b : Backend) (t : SeedTemplate)
    (ht : t ∈ SEED_ITEMS) :
    uniqueName t.name uid ∈ ownedNames (check_and_heal_seed b uid).1 uid
    ∨ uniqueName t.name uid ∈ allNamesL (check_and_heal_seed b uid).1 := by
  rcases healRun_covers uid (ownedNames b uid) SEED_ITEMS b t ht with h | h
  · exact Or.inl (healRun_ownedNames_mono uid (ownedNames b uid) SEED_ITEMS b uid _ h)
  · exact Or.inr h

/-- The healed store of a run is the fold of the steps over the snapshot. -/
theorem check_and_heal_seed_fst (b : Backend) (uid : String) :
    (check_and_heal_seed b uid).1 = (healRun uid (ownedNames b uid) b SEED_ITEMS).1 := rfl

/-- The second healing run does not change the backend at all. -/
theorem check_heal_idem (b : Backend) (uid : String) :
    (check_and_heal_seed (check_and_heal_seed b uid).1 uid).1
      = (check_and_heal_seed b uid).1 := by
  rw [check_and_heal_seed_fst ((check_and_heal_seed b uid).1) uid]
  exact healRun_id_of_covered uid (check_and_heal_seed b uid).1 SEED_ITEMS
    (fun t ht => heal_establishes_cover uid b t ht)

/-- One healing step preserves global name distinctness. -/
theorem healStep_names_nodup (uid : String) (snap : List String) (b : Backend)
    (t : SeedTemplate) (h : (allNamesL b).Nodup) :
    (allNamesL (healStep uid snap b t).1).Nodup := by
  by_cases h1 : uniqueName t.name uid ∈ snap
  · simpa [healStep, h1] using h
  · cases h2 : nameExists b (uniqueName t.name uid) with
    | true =>
        cases hf : (listItems b uid false).find?
            (fun i => i.name == uniqueName t.name uid) with
        | none => simpa [healStep, h1, h2, hf] using h
        | some target =>
            have ha : (healStep uid snap b t).1 = activateItem b target.id := by
              simp [healStep, h1, h2, hf]
            rw [ha, allNamesL_activateItem]
            exact h
    | false =>
        have hn : uniqueName t.name uid ∉ allNamesL b := by
          intro hmem
          have := (nameExists_iff b _).mpr hmem
          rw [h2] at this
          cases this
        have hc : (healStep uid snap b t).1
            = createItem b uid (uniqueName t.name uid) t.is_active := by
          simp [healStep, h1, h2]
        rw [hc]
        have : allNamesL (createItem b uid (uniqueName t.name uid) t.is_active)
            = allNamesL b ++ [uniqueName t.name uid] := by
          simp [allNamesL, createItem]
        rw [this, List.nodup_append]
        exact ⟨h, List.nodup_singleton _, List.disjoint_singleton.mpr hn⟩

/-- A whole healing run preserves global name distinctness. -/
theorem healRun_names_nodup (uid : String) (snap : List String) :
    ∀ (ts : List SeedTemplate) (b : Backend), (allNamesL b).Nodup →
    (allNamesL (healRun uid snap b ts).1).Nodup := by
  intro ts
  induction ts with
  | nil => intro b h; exact h
  | cons t ts ih =>
      intro b h
      exact ih (healStep uid snap b t).1 (healStep_names_nodup uid snap b t h)

/-- The owner's active names sit inside the global name list. -/
theorem activeOwnedNames_sublist (b : Backend) (o : String) :
    (activeOwnedNames b o).Sublist (allNamesL b) := by
  unfold activeOwnedNames allNamesL listItems
  exact List.Sublist.map _ (List.filter_sublist _)

/- ## Claim theorem: healer idempotence (C3) -/

/-- Claim C3: with the backend's global name-uniqueness invariant as the
only hypothesis, running check_and_heal_seed twice in a row for an owner
(first run complete, no other writers) leaves the same count of owned seed
items as one run - the second run does not change the store at all - and
after healing no two active items of that owner share an owned name. -/
theorem heal_twice_eq_once (b : Backend) (uid : String)
    (hnd : (allNamesL b).Nodup) :
    countOwned (check_and_heal_seed (check_and_heal_seed b uid).1 uid).1 uid
      = countOwned (check_and_heal_seed b uid).1 uid
    ∧ (activeOwnedNames (check_and_heal_seed b uid).1 uid).Nodup := by
  constructor
  · rw [check_heal_idem b uid]
  · have h1 : (allNamesL (check_and_heal_seed b uid).1).Nodup :=
      healRun_names_nodup uid (ownedNames b uid) SEED_ITEMS b hnd
    exact List.Nodup.sublist (activeOwnedNames_sublist _ _) h1

/-- Witness for C3: healing an empty store twice for a concrete owner id
creates the eleven seed items once and the second run changes nothing. -/
theorem heal_twice_eq_once_witness :
    countOwned (check_and_heal_seed
        (check_and_heal_seed ⟨[], 0⟩ "695b747b17d17d21e8ae8baa").1
        "695b747b17d17d21e8ae8baa").1 "695b747b17d17d21e8ae8baa"
      = countOwned (check_and_heal_seed ⟨[], 0⟩ "695b747b17d17d21e8ae8baa").1
          "695b747b17d17d21e8ae8baa"
    ∧ (activeOwnedNames (check_and_heal_seed ⟨[], 0⟩ "695b747b17d17d21e8ae8baa").1
        "695b747b17d17d21e8ae8baa").Nodup :=
  heal_twice_eq_once ⟨[], 0⟩ "695b747b17d17d21e8ae8baa" (by decide)
